import Mathlib

/-!
Verification development for the `requestform-by-jotform` repository.

The repository renders a third-party (Jotform) form page, extracts a
structured model of its fields (`src/jotform-parser.ts`), and reconciles an
externally supplied prefill payload against that model, mutating the live
document (`src/form-modifier.ts` and its extended variant with top-level
field bindings).

The DOM is modelled as an association list from element ids to an `Elem`
record holding exactly the pieces of per-element state the program reads or
writes: the list of `.form-radio-item` descendants (as identity tokens),
the text of a `.form-collapse-mid` descendant, the visible date input, the
three hidden `[year]`/`[month]`/`[day]` inputs, the element's own value
(for elements that are themselves inputs), and the ordered list of
`input`/`select`/`textarea` descendants.  Host string primitives used by
the code (regex replace, split, trim) are given structurally recursive
definitions with the same semantics as their JavaScript counterparts.
-/

namespace RequestForm

/-! ### JavaScript string primitives -/

/-- The character class matched by JavaScript's `\s` (used by
`replace(/\s/g, '')`, `trim()`): ASCII whitespace, NBSP, BOM and the
Unicode space separators. -/
def isJsWhitespace (c : Char) : Bool :=
  c = ' ' || c = '\t' || c = '\n' || c = '\r' ||
  c.toNat = 0x0b || c.toNat = 0x0c || c.toNat = 0xa0 || c.toNat = 0x1680 ||
  (0x2000 ≤ c.toNat && c.toNat ≤ 0x200a) ||
  c.toNat = 0x2028 || c.toNat = 0x2029 || c.toNat = 0x202f ||
  c.toNat = 0x205f || c.toNat = 0x3000 || c.toNat = 0xfeff

/-- `s.replace(/\s/g, '')` — the label/key normalization used throughout
`applyDataToForm`. -/
def normalizeLabel (s : String) : String :=
  ⟨s.data.filter (fun c => !isJsWhitespace c)⟩

/-- `s.trim()` (JavaScript semantics: strips the `\s` class at both ends). -/
def jsTrim (s : String) : String :=
  ⟨((s.data.dropWhile isJsWhitespace).reverse.dropWhile isJsWhitespace).reverse⟩

/-- `data.replace(/ /g, '+')` in `parseQueryParameters`. -/
def spacesToPlus (s : String) : String :=
  ⟨s.data.map (fun c => if c = ' ' then '+' else c)⟩

/-- `name.match(/^q(\d+)_/)`, returning the captured digit run. -/
def qidFromName (name : String) : Option String :=
  match name.data with
  | [] => none
  | c :: rest =>
    if c = 'q' then
      let ds := rest.takeWhile Char.isDigit
      if ds ≠ [] ∧ (rest.dropWhile Char.isDigit).head? = some '_'
      then some ⟨ds⟩ else none
    else none

/-- `s.match(/\d+/)?.[0]` — the first maximal digit run of `s`. -/
def firstDigitRun (s : String) : Option String :=
  match s.data.dropWhile (fun c => !c.isDigit) with
  | [] => none
  | l => some ⟨l.takeWhile Char.isDigit⟩

/-- `name.split('[')[0]`. -/
def beforeBracket (s : String) : String :=
  ⟨s.data.takeWhile (fun c => c ≠ '[')⟩

/-- `el.id.replace('id_', '')` — removes the first occurrence of `id_`. -/
def stripIdMarkerAux : List Char → List Char
  | 'i' :: 'd' :: '_' :: rest => rest
  | c :: rest => c :: stripIdMarkerAux rest
  | [] => []

def stripIdMarker (s : String) : String := ⟨stripIdMarkerAux s.data⟩

/-- `value.split('-')` on character lists (single-character separator). -/
def splitDashAux : List Char → List (List Char)
  | [] => [[]]
  | c :: rest =>
    if c = '-' then [] :: splitDashAux rest
    else
      match splitDashAux rest with
      | [] => [[c]]
      | h :: t => (c :: h) :: t

/-- `value.split('-')` in the date/time branch of `applyDataToForm`. -/
def splitDash (s : String) : List String :=
  (splitDashAux s.data).map (fun l => ⟨l⟩)

/-- `t || null` applied to a string: the empty string becomes `null`. -/
def emptyToNone (s : String) : Option String :=
  if s = "" then none else some s

/-! ### Data model (`jotform-parser.ts`) -/

/-- One entry of `subfields` for a `control_fullname` field. -/
structure Subfield where
  name : Option String
  label : Option String
deriving DecidableEq, Repr

/-- `FormField` from `jotform-parser.ts`. -/
structure FormField where
  qid : Option String
  id : Option String
  name : Option String
  type : Option String
  text : Option String
  subLabel : Option String
  options : Option (List (Option String))
  subfields : Option (List Subfield)
  validation : Option String
  hidden : Bool
  order : Nat
deriving DecidableEq, Repr

/-- `FieldGroup` from `jotform-parser.ts`. -/
structure FieldGroup where
  collapseField : FormField
  childFields : List FormField
deriving DecidableEq, Repr

/-! ### Raw DOM input to the extractor

`RawElem` is the projection of one candidate `li` element (or the submit
button element) onto exactly the DOM queries `extractFieldsFromDOM`
performs on it.  `nodeId` models JavaScript object identity (used by
`fieldElements.includes(buttonElement)`). -/

/-- The `select` element of a `control_dropdown` field: its `name`
attribute and the visible texts of its options. -/
structure SelectInfo where
  name : String
  optionTexts : List String
deriving DecidableEq, Repr

/-- One `.form-sub-label-container` of a `control_fullname` field:
`dataset.inputType` and the text of its `label` descendant. -/
structure SubContainerInfo where
  inputType : Option String
  labelText : Option String
deriving DecidableEq, Repr

structure RawElem where
  nodeId : Nat
  id : String
  datasetType : Option String
  displayNone : Bool
  hiddenClass : Bool
  parentDisplayNone : Bool
  nameAttr : Option String
  labelText : Option String
  subLabelText : Option String
  selectEl : Option SelectInfo
  radioLabelTexts : List (Option String)
  subContainers : List SubContainerInfo
  emailValidate : Bool
  buttonText : Option String
deriving DecidableEq, Repr

/-- The body of the `allElements.map` callback in `extractFieldsFromDOM`:
builds one `FormField` from a candidate element, with `ord` the value taken
by the `order++` counter. -/
def mkField (el : RawElem) (ord : Nat) : FormField :=
  let typ : Option String := match el.datasetType with
    | some t => if t = "" then none else some t
    | none => none
  let hidden := el.displayNone || el.hiddenClass || el.parentDisplayNone
  let qidBase : Option String := match el.nameAttr with
    | some n => qidFromName n
    | none => none
  let nameBase : Option String := match el.nameAttr with
    | some n => some (beforeBracket n)
    | none => none
  let textBase : Option String := match el.labelText with
    | some t => emptyToNone (jsTrim t)
    | none => none
  let subLabel : Option String := el.subLabelText.map jsTrim
  let name : Option String :=
    if typ = some "control_dropdown" then
      match el.selectEl with
      | some sel => emptyToNone sel.name
      | none => none
    else if typ = some "control_button" then some "submit"
    else nameBase
  let qidSwitch : Option String :=
    if typ = some "control_dropdown" then
      match el.selectEl with
      | some sel => qidFromName sel.name
      | none => none
    else if typ = some "control_button" then some (stripIdMarker el.id)
    else qidBase
  let text : Option String :=
    if typ = some "control_button" then el.buttonText.map jsTrim
    else textBase
  let options : Option (List (Option String)) :=
    if typ = some "control_dropdown" then
      some (match el.selectEl with
        | some sel => sel.optionTexts.map (fun t => some t)
        | none => [])
    else if typ = some "control_radio" then
      some (el.radioLabelTexts.map (fun o => o.map jsTrim))
    else none
  let subfields : Option (List Subfield) :=
    if typ = some "control_fullname" then
      some (el.subContainers.map (fun sub => ⟨sub.inputType, sub.labelText.map jsTrim⟩))
    else none
  let validation : Option String :=
    if typ = some "control_email" then
      if el.emailValidate then some "Email" else none
    else none
  let qid : Option String :=
    if qidSwitch = none ∨ qidSwitch = some "" then
      match firstDigitRun el.id with
      | some run => some run
      | none => qidSwitch
    else qidSwitch
  { qid := qid, id := some el.id, name := name, type := typ, text := text,
    subLabel := subLabel, options := options, subfields := subfields,
    validation := validation, hidden := hidden, order := ord }

/-- The candidate element list of `extractFieldsFromDOM`: all
`.form-section > li` items, with the `#id_2` submit element appended when
present and not already among them. -/
def allCandidates (sectionItems : List RawElem) (buttonElement : Option RawElem) :
    List RawElem :=
  sectionItems ++ (match buttonElement with
    | some b => if sectionItems.contains b then [] else [b]
    | none => [])

/-- `extractFieldsFromDOM` from `jotform-parser.ts`:  maps `mkField` over
the candidate elements, numbering them with the 1-based `order` counter. -/
def extractFieldsFromDOM (sectionItems : List RawElem)
    (buttonElement : Option RawElem) : List FormField :=
  (allCandidates sectionItems buttonElement).enum.map
    (fun p => mkField p.2 (p.1 + 1))

/-! ### The grouper (`groupFields`) -/

/-- `field.type === 'control_collapse'`. -/
def isCollapse (f : FormField) : Bool := f.type == some "control_collapse"

/-- The body of the `fields.forEach` loop in `groupFields`; the state is
the pair (groups pushed so far, the currently open group). -/
def groupStep (acc : List FieldGroup × Option FieldGroup) (field : FormField) :
    List FieldGroup × Option FieldGroup :=
  if isCollapse field then
    match acc.2 with
    | some cg => (acc.1 ++ [cg], some ⟨field, []⟩)
    | none => (acc.1, some ⟨field, []⟩)
  else
    match acc.2 with
    | some cg => (acc.1, some ⟨cg.collapseField, cg.childFields ++ [field]⟩)
    | none => acc

/-- The trailing "push the last group" step of `groupFields`. -/
def flushGroups (p : List FieldGroup × Option FieldGroup) : List FieldGroup :=
  match p.2 with
  | some cg => p.1 ++ [cg]
  | none => p.1

/-- `groupFields` from `jotform-parser.ts`. -/
def groupFields (fields : List FormField) : List FieldGroup :=
  flushGroups (fields.foldl groupStep ([], none))

/-! ### Document model for `applyDataToForm` -/

/-- One `input`/`select`/`textarea` descendant of a field container.
`tag` is the lower-cased tag name. -/
structure InputControl where
  tag : String
  inputType : String
  name : String
  value : String
  checked : Bool
deriving DecidableEq, Repr

/-- The per-element state read and written by `applyDataToForm`.
`radioItems` holds identity tokens of the element's `.form-radio-item`
descendants in DOM order; an `Option` field is `none` when the queried
descendant is absent. -/
structure Elem where
  selfValue : Option String
  radioItems : List Nat
  collapseMid : Option String
  liteModeInput : Option String
  yearInput : Option String
  monthInput : Option String
  dayInput : Option String
  controls : List InputControl
deriving DecidableEq, Repr

/-- The document: elements by id, in document order. -/
structure Doc where
  elems : List (String × Elem)
deriving DecidableEq, Repr

/-- `document.getElementById`. -/
def findElem (d : Doc) (id : String) : Option Elem :=
  match d.elems.find? (fun p => p.1 == id) with
  | some p => some p.2
  | none => none

/-- Mutate the first element carrying the given id. -/
def updateElem (l : List (String × Elem)) (id : String) (f : Elem → Elem) :
    List (String × Elem) :=
  match l with
  | [] => []
  | p :: rest =>
    if p.1 = id then (p.1, f p.2) :: rest else p :: updateElem rest id f

def updateFirst (d : Doc) (id : String) (f : Elem → Elem) : Doc :=
  ⟨updateElem d.elems id f⟩

/-! ### Prefill payload (`form-modifier.ts`) -/

/-- `QueryGroupData`: one per-group override record; `fields` is iterated
in insertion order. -/
structure QueryGroupData where
  headerText : String
  fields : List (String × String)
deriving DecidableEq, Repr

/-- `PrefillData`: optional top-level direct bindings plus the ordered
per-group records. -/
structure PrefillData where
  topLevel : Option (List (String × String))
  groups : List QueryGroupData
deriving DecidableEq, Repr

/-- Lookup in a JavaScript object modelled as an association list. -/
def lookupStr (l : List (String × String)) (k : String) : Option String :=
  match l.find? (fun p => p.1 == k) with
  | some p => some p.2
  | none => none

/-! ### `parseQueryParameters`

The host primitives (`atob`, `TextDecoder().decode`, `JSON.parse`) are
taken as parameters; each is `Option`-valued, `none` standing for the
failure that the surrounding `try`/`catch` turns into a `null` return. -/

/-- The `charCodeAt` loop copying the binary string into a `Uint8Array`. -/
def bytesOfBinaryString (s : String) : List Nat :=
  s.data.map (fun c => c.toNat % 256)

/-- `parseQueryParameters` from `form-modifier.ts`, with the `data` query
parameter and the host decoding functions passed in. -/
def parseQueryParameters (dataParam : Option String)
    (atobFn : String → Option String)
    (decodeUtf8 : List Nat → Option String)
    (parseJson : String → Option PrefillData) : Option PrefillData :=
  match dataParam with
  | none => none
  | some data =>
    if data = "" then none
    else
      match atobFn (spacesToPlus data) with
      | none => none
      | some binaryString =>
        match decodeUtf8 (bytesOfBinaryString binaryString) with
        | none => none
        | some decodedString => parseJson decodedString

/-! ### `applyDataToForm` -/

/-- The top-level direct bindings (`first_195`, `last_195`, `input_6`,
`input_34`): set the element's own value when the key is present with a
truthy value and the element exists. -/
def setIfPresent (tl : List (String × String)) (key elemId : String)
    (doc : Doc) : Doc :=
  match lookupStr tl key with
  | none => doc
  | some v =>
    if v = "" then doc
    else
      match findElem doc elemId with
      | none => doc
      | some _ => updateFirst doc elemId (fun e => { e with selfValue := some v })

/-- Lines 69–106 of the extended `applyDataToForm`: the fixed top-level
field bindings. -/
def applyTopLevel (prefillData : Option PrefillData) (doc : Doc) : Doc :=
  match prefillData with
  | none => doc
  | some pd =>
    match pd.topLevel with
    | none => doc
    | some tl =>
      let doc1 := setIfPresent tl "お子さんの氏名_姓" "first_195" doc
      let doc2 := setIfPresent tl "お子さんの氏名_名" "last_195" doc1
      let doc3 := setIfPresent tl "保護者メールアドレス" "input_6" doc2
      setIfPresent tl "対象月" "input_34" doc3

/-- `prefillData && prefillData.groups ? prefillData.groups[index] :
undefined`. -/
def alignedGroupData (prefillData : Option PrefillData) (index : Nat) :
    Option QueryGroupData :=
  match prefillData with
  | some pd => pd.groups.get? index
  | none => none

/-- `f.text === 'リクエスト内容'`. -/
def isRequestContent (f : FormField) : Bool := f.text == some "リクエスト内容"

/-- The branch-selection removal: when 4 or more `.form-radio-item`
children are present, remove the items at snapshot indices 3 then 2 when
payload data exists, else at indices 1 then 0 (removal from the back
first, exactly as in the source). -/
def reduceRadioItems (radioItems : List Nat) (hasData : Bool) : List Nat :=
  if 4 ≤ radioItems.length then
    if hasData then (radioItems.eraseIdx 3).eraseIdx 2
    else (radioItems.eraseIdx 1).eraseIdx 0
  else radioItems

/-- The header override step on the successful-parse path:
`document.querySelector('#cid .form-collapse-mid')` exists and
`groupData.headerText` is truthy.  The source builds that selector by raw
interpolation of the group id, and the host parser throws a `SyntaxError`
on an id making it invalid; that error channel is modelled by
`headerStepE` below (the source has no `try`/`catch` around it), while
this function is the behaviour after a successful parse. -/
def headerStep (targetGroup : FieldGroup) (gd : QueryGroupData) (doc : Doc) :
    Doc :=
  match targetGroup.collapseField.id with
  | none => doc
  | some cid =>
    if cid = "" then doc
    else
      match findElem doc cid with
      | none => doc
      | some e =>
        match e.collapseMid with
        | none => doc
        | some _ =>
          if gd.headerText = "" then doc
          else updateFirst doc cid (fun el => { el with collapseMid := some gd.headerText })

/-- The date/time mutation: write the visible `lite_mode_` input, then,
when the value splits on `-` into exactly three parts, write each present
hidden `[year]`/`[month]`/`[day]` input independently. -/
def applyDateTime (value : String) (e : Elem) : Elem :=
  let e1 := match e.liteModeInput with
    | some _ => { e with liteModeInput := some value }
    | none => e
  match splitDash value with
  | [year, month, day] =>
    let e2 := match e1.yearInput with
      | some _ => { e1 with yearInput := some year }
      | none => e1
    let e3 := match e2.monthInput with
      | some _ => { e2 with monthInput := some month }
      | none => e2
    match e3.dayInput with
    | some _ => { e3 with dayInput := some day }
    | none => e3
  | _ => e1

/-- Set the value of the first `input`/`select`/`textarea` descendant. -/
def setHeadControlValue (value : String) (e : Elem) : Elem :=
  match e.controls with
  | [] => e
  | c :: rest => { e with controls := { c with value := value } :: rest }

/-- Whether a control matches `input[name="n"][value="v"]`. -/
def matchesRadioSel (n v : String) (c : InputControl) : Bool :=
  c.tag == "input" && c.name == n && c.value == v

/-- Check (set `checked := true` on) the first control of a list matching
`input[name="n"][value="v"]`. -/
def checkControl (n v : String) : List InputControl → List InputControl
  | [] => []
  | c :: rest =>
    if matchesRadioSel n v c then { c with checked := true } :: rest
    else c :: checkControl n v rest

/-- `document.querySelectorAll('input[name="n"][value="v"]')` followed by
`radioGroup[0].checked = true`, on the successful-parse path: check the
first matching input in document order; no-op when none matches.  The
source interpolates the payload-controlled name and value into the
selector string, and the host parser throws a `SyntaxError` when that
string is invalid (e.g. a value containing `"`); that error channel is
modelled by `applyGenericValueE` below, while this function is the
behaviour after a successful parse. -/
def checkFirstRadioInElems (n v : String) :
    List (String × Elem) → List (String × Elem)
  | [] => []
  | (k, e) :: rest =>
    if e.controls.any (matchesRadioSel n v) then
      (k, { e with controls := checkControl n v e.controls }) :: rest
    else (k, e) :: checkFirstRadioInElems n v rest

/-- The `switch (input.tagName.toLowerCase())` of the generic (non-date)
value application, given the target field's container element. -/
def applyGenericValue (doc : Doc) (tid : String) (el : Elem) (value : String) :
    Doc :=
  match el.controls.head? with
  | none => doc
  | some c =>
    if c.tag = "select" then updateFirst doc tid (setHeadControlValue value)
    else if c.tag = "input" then
      if c.inputType = "radio" then ⟨checkFirstRadioInElems c.name value doc.elems⟩
      else updateFirst doc tid (setHeadControlValue value)
    else updateFirst doc tid (setHeadControlValue value)

/-- `f.text` is `null`, the match target of the `timeOption` synthetic
key. -/
def hasNullText (f : FormField) : Bool := f.text.isNone

/-- `f.text?.replace(/\s/g, '') === normalizedKey`. -/
def matchesNormalizedKey (nk : String) (f : FormField) : Bool :=
  match f.text with
  | some t => normalizeLabel t == nk
  | none => false

/-- The body of the `for (const key in groupData.fields)` loop of
`applyDataToForm`, for one key/value pair. -/
def applyField (targetGroup : FieldGroup) (doc : Doc) (kv : String × String) :
    Doc :=
  if kv.1 = "リクエスト内容" then doc
  else
    let normalizedKey := normalizeLabel kv.1
    let value :=
      if (normalizedKey = "時" ∨ normalizedKey = "分") ∧ kv.2.length = 1
      then "0" ++ kv.2 else kv.2
    match (if kv.1 = "timeOption" then targetGroup.childFields.find? hasNullText
      else targetGroup.childFields.find? (matchesNormalizedKey normalizedKey)) with
    | none => doc
    | some tf =>
      match tf.id with
      | none => doc
      | some tid =>
        if tid = "" then doc
        else
          match findElem doc tid with
          | none => doc
          | some el =>
            if tf.type = some "control_datetime" then
              updateFirst doc tid (applyDateTime value)
            else applyGenericValue doc tid el value

/-- The `if (requestFieldElement) { ... }` block of the group loop: when
the request-content element resolves, rewrite its `.form-radio-item` list
according to presence of the aligned payload entry. -/
def branchReduce (prefillData : Option PrefillData) (index : Nat)
    (rid : String) (doc : Doc) : Doc :=
  match findElem doc rid with
  | none => doc
  | some _ => updateFirst doc rid (fun e =>
      { e with radioItems :=
          reduceRadioItems e.radioItems (alignedGroupData prefillData index).isSome })

/-- The body of the `formGroups.forEach` loop of `applyDataToForm` for the
group at position `index`: skip the group when no `リクエスト内容` field
with a truthy id is found; otherwise reduce the branch choices, and — when
an aligned payload entry exists — override the header and apply each field
value in turn. -/
def processGroup (prefillData : Option PrefillData) (index : Nat)
    (targetGroup : FieldGroup) (doc : Doc) : Doc :=
  match targetGroup.childFields.find? isRequestContent with
  | none => doc
  | some requestField =>
    match requestField.id with
    | none => doc
    | some rid =>
      if rid = "" then doc
      else
        match alignedGroupData prefillData index with
        | none => branchReduce prefillData index rid doc
        | some gd => gd.fields.foldl (applyField targetGroup)
            (headerStep targetGroup gd (branchReduce prefillData index rid doc))

/-- The `formGroups.forEach((targetGroup, index) => ...)` traversal. -/
def processGroups (prefillData : Option PrefillData) (index : Nat)
    (formGroups : List FieldGroup) (doc : Doc) : Doc :=
  match formGroups with
  | [] => doc
  | g :: rest => processGroups prefillData (index + 1) rest
      (processGroup prefillData index g doc)

/-- `applyDataToForm` from the extended `form-modifier`: top-level fixed
bindings, then the per-group pass. -/
def applyDataToForm (formGroups : List FieldGroup)
    (prefillData : Option PrefillData) (doc : Doc) : Doc :=
  processGroups prefillData 0 formGroups (applyTopLevel prefillData doc)

/-! ### The exception channel of `applyDataToForm`

`applyDataToForm` contains no `try`/`catch`, and at exactly two places it
hands a selector built by raw string interpolation to the host parser:
`document.querySelector('#' + collapseField.id + ' .form-collapse-mid')`
in the header override, and
`document.querySelectorAll('input[name="…"][value="' + value + '"]')`
in the radio branch of the generic value application.  The host parser
throws `SyntaxError` on a string that is not a valid selector (for
example a payload value containing `"`, or an id starting with a digit),
and the exception propagates out of the `forEach`, aborting all remaining
groups.  The `…E` definitions below give `applyDataToForm` this
exception-aware semantics: an `Except`-valued run, parametric (like the
host decoders of `parseQueryParameters`) over the parser's validity
judgement `selValid`, where `selValid s = false` stands for the
`SyntaxError` raised when parsing `s`.  The total definitions above are
the successful-parse behaviour. -/

/-- The selector string the source interpolates for the header override. -/
def headerSelector (cid : String) : String :=
  "#" ++ cid ++ " .form-collapse-mid"

/-- The selector string the source interpolates in the radio branch. -/
def radioSelector (n v : String) : String :=
  "input[name=\"" ++ n ++ "\"][value=\"" ++ v ++ "\"]"

mutual

/-- The fragment of the host CSS selector grammar relevant to the two
selector shapes this program interpolates, used to instantiate `selValid`
at concrete inputs: scanning left to right, a double-quoted string must be
terminated before the end of the selector (an interpolated `"` inside an
attribute value closes the string early and leaves an unterminated one),
and the character after `#` must not be a digit. -/
def cssScanAux : List Char → Bool
  | [] => true
  | '"' :: rest => cssStringAux rest
  | '#' :: c :: rest => if c.isDigit then false else cssScanAux (c :: rest)
  | '#' :: [] => false
  | _ :: rest => cssScanAux rest

/-- Companion of `cssScanAux`: inside a double-quoted string, scan to the
closing quote; reaching the end of the selector first means the string is
unterminated and the selector invalid. -/
def cssStringAux : List Char → Bool
  | [] => false
  | '"' :: rest => cssScanAux rest
  | _ :: rest => cssStringAux rest

end

def cssSelectorValid (s : String) : Bool := cssScanAux s.data

/-- The header override with the selector parse made explicit: after the
truthy-id guard the source hands `#cid .form-collapse-mid` to
`querySelector`, which throws when the selector does not parse and
otherwise behaves as `headerStep`. -/
def headerStepE (selValid : String → Bool) (targetGroup : FieldGroup)
    (gd : QueryGroupData) (doc : Doc) : Except String Doc :=
  match targetGroup.collapseField.id with
  | none => Except.ok doc
  | some cid =>
    if cid = "" then Except.ok doc
    else if selValid (headerSelector cid) then
      Except.ok (headerStep targetGroup gd doc)
    else Except.error (headerSelector cid)

/-- The generic value application with the radio-selector parse made
explicit: the radio branch hands `input[name="…"][value="…"]` to
`querySelectorAll`, which throws when the interpolated name or value makes
the selector invalid and otherwise behaves as the total scan. -/
def applyGenericValueE (selValid : String → Bool) (doc : Doc) (tid : String)
    (el : Elem) (value : String) : Except String Doc :=
  match el.controls.head? with
  | none => Except.ok doc
  | some c =>
    if c.tag = "select" then Except.ok (updateFirst doc tid (setHeadControlValue value))
    else if c.tag = "input" then
      if c.inputType = "radio" then
        if selValid (radioSelector c.name value) then
          Except.ok ⟨checkFirstRadioInElems c.name value doc.elems⟩
        else Except.error (radioSelector c.name value)
      else Except.ok (updateFirst doc tid (setHeadControlValue value))
    else Except.ok (updateFirst doc tid (setHeadControlValue value))

/-- `applyField` with the exception channel: identical skeleton, the only
throwing point being the radio selector parse. -/
def applyFieldE (selValid : String → Bool) (targetGroup : FieldGroup)
    (doc : Doc) (kv : String × String) : Except String Doc :=
  if kv.1 = "リクエスト内容" then Except.ok doc
  else
    let normalizedKey := normalizeLabel kv.1
    let value :=
      if (normalizedKey = "時" ∨ normalizedKey = "分") ∧ kv.2.length = 1
      then "0" ++ kv.2 else kv.2
    match (if kv.1 = "timeOption" then targetGroup.childFields.find? hasNullText
      else targetGroup.childFields.find? (matchesNormalizedKey normalizedKey)) with
    | none => Except.ok doc
    | some tf =>
      match tf.id with
      | none => Except.ok doc
      | some tid =>
        if tid = "" then Except.ok doc
        else
          match findElem doc tid with
          | none => Except.ok doc
          | some el =>
            if tf.type = some "control_datetime" then
              Except.ok (updateFirst doc tid (applyDateTime value))
            else applyGenericValueE selValid doc tid el value

/-- The `for (const key in groupData.fields)` loop: an exception raised on
one key propagates, aborting the remaining keys. -/
def applyFieldsE (selValid : String → Bool) (targetGroup : FieldGroup) :
    List (String × String) → Doc → Except String Doc
  | [], doc => Except.ok doc
  | kv :: rest, doc =>
    match applyFieldE selValid targetGroup doc kv with
    | Except.ok d1 => applyFieldsE selValid targetGroup rest d1
    | Except.error e => Except.error e

/-- The group body with the exception channel: branch reduction and the
structural guards cannot throw (fixed selectors and `getElementById`
only); the header override and the field loop can. -/
def processGroupE (selValid : String → Bool) (prefillData : Option PrefillData)
    (index : Nat) (targetGroup : FieldGroup) (doc : Doc) : Except String Doc :=
  match targetGroup.childFields.find? isRequestContent with
  | none => Except.ok doc
  | some requestField =>
    match requestField.id with
    | none => Except.ok doc
    | some rid =>
      if rid = "" then Except.ok doc
      else
        match alignedGroupData prefillData index with
        | none => Except.ok (branchReduce prefillData index rid doc)
        | some gd =>
          match headerStepE selValid targetGroup gd
              (branchReduce prefillData index rid doc) with
          | Except.ok d1 => applyFieldsE selValid targetGroup gd.fields d1
          | Except.error e => Except.error e

/-- The `forEach` traversal with the exception channel: there is no
`try`/`catch`, so an exception raised while processing one group
propagates and the remaining groups are not processed. -/
def processGroupsE (selValid : String → Bool) (prefillData : Option PrefillData)
    (index : Nat) : List FieldGroup → Doc → Except String Doc
  | [], doc => Except.ok doc
  | g :: rest, doc =>
    match processGroupE selValid prefillData index g doc with
    | Except.ok d1 => processGroupsE selValid prefillData (index + 1) rest d1
    | Except.error e => Except.error e

/-- `applyDataToForm` with the exception channel (the top-level bindings
use `getElementById` only and cannot throw). -/
def applyDataToFormE (selValid : String → Bool) (formGroups : List FieldGroup)
    (prefillData : Option PrefillData) (doc : Doc) : Except String Doc :=
  processGroupsE selValid prefillData 0 formGroups (applyTopLevel prefillData doc)

/-! ### Derived views used in statements -/

/-- Everything of an element's state except its `.form-radio-item` list:
the element's own value, the header text, the visible and hidden date
inputs, and the control values.  Used to state frame conditions. -/
def nonRadioView (e : Elem) :
    Option String × Option String × Option String × Option String ×
      Option String × Option String × List InputControl :=
  (e.selfValue, e.collapseMid, e.liteModeInput, e.yearInput, e.monthInput,
    e.dayInput, e.controls)

/-- The id of the element a group's branch-selection step mutates: the id
of its first `リクエスト内容` member, when that id is truthy. -/
def requestId (g : FieldGroup) : Option String :=
  match g.childFields.find? isRequestContent with
  | none => none
  | some rf =>
    match rf.id with
    | none => none
    | some rid => if rid = "" then none else some rid

/-! ### Concrete sample data (used by the witnesses) -/

def sampleCollapseField : FormField :=
  { qid := none, id := some "col1", name := none, type := some "control_collapse",
    text := some "第1グループ", subLabel := none, options := none, subfields := none,
    validation := none, hidden := false, order := 1 }

def sampleRequestField : FormField :=
  { qid := none, id := some "rq1", name := none, type := some "control_radio",
    text := some "リクエスト内容", subLabel := none, options := none, subfields := none,
    validation := none, hidden := false, order := 2 }

def sampleGroup : FieldGroup := ⟨sampleCollapseField, [sampleRequestField]⟩

def sampleGroupNoRequest : FieldGroup := ⟨sampleCollapseField, []⟩

def sampleControl : InputControl :=
  { tag := "input", inputType := "text", name := "q3_field", value := "",
    checked := false }

def sampleElem : Elem :=
  { selfValue := none, radioItems := [1, 2, 3, 4], collapseMid := some "旧ヘッダー",
    liteModeInput := some "", yearInput := some "", monthInput := some "",
    dayInput := none, controls := [sampleControl] }

def sampleDoc : Doc := ⟨[("rq1", sampleElem), ("col1", sampleElem)]⟩

def sampleGroupData : QueryGroupData := ⟨"", []⟩

def samplePrefill : PrefillData := ⟨none, [sampleGroupData]⟩

/-! ### Concrete data for the exception counterexample: a payload value
containing `"` applied to a radio-typed field -/

def badCollapseField : FormField :=
  { qid := none, id := none, name := none, type := some "control_collapse",
    text := some "G1", subLabel := none, options := none, subfields := none,
    validation := none, hidden := false, order := 1 }

def badRequestField : FormField :=
  { qid := none, id := some "rqB", name := none, type := some "control_radio",
    text := some "リクエスト内容", subLabel := none, options := none, subfields := none,
    validation := none, hidden := false, order := 2 }

def badTargetField : FormField :=
  { qid := none, id := some "radB", name := none, type := some "control_radio",
    text := some "ラジオ", subLabel := none, options := none, subfields := none,
    validation := none, hidden := false, order := 3 }

def badGroup : FieldGroup := ⟨badCollapseField, [badRequestField, badTargetField]⟩

def secondRequestField : FormField :=
  { qid := none, id := some "rqS", name := none, type := some "control_radio",
    text := some "リクエスト内容", subLabel := none, options := none, subfields := none,
    validation := none, hidden := false, order := 4 }

def secondGroup : FieldGroup := ⟨badCollapseField, [secondRequestField]⟩

def badRadioControl : InputControl :=
  { tag := "input", inputType := "radio", name := "qr_radio", value := "",
    checked := false }

def badElemReq : Elem :=
  { selfValue := none, radioItems := [1, 2, 3, 4], collapseMid := none,
    liteModeInput := none, yearInput := none, monthInput := none,
    dayInput := none, controls := [] }

def badElemTarget : Elem :=
  { selfValue := none, radioItems := [], collapseMid := none,
    liteModeInput := none, yearInput := none, monthInput := none,
    dayInput := none, controls := [badRadioControl] }

def badElemReqSecond : Elem :=
  { selfValue := none, radioItems := [5, 6, 7, 8], collapseMid := none,
    liteModeInput := none, yearInput := none, monthInput := none,
    dayInput := none, controls := [] }

def badDoc : Doc :=
  ⟨[("rqB", badElemReq), ("radB", badElemTarget), ("rqS", badElemReqSecond)]⟩

def badGroupData : QueryGroupData := ⟨"", [("ラジオ", "x\"y")]⟩

def badPrefill : PrefillData := ⟨none, [badGroupData]⟩

/-! ### Helper lemmas -/

/-- `header + members` of one group. -/
def flat1 (g : FieldGroup) : List FormField := g.collapseField :: g.childFields

/-- Concatenation of `header + members` across a group list. -/
def groupsContent (gs : List FieldGroup) : List FormField :=
  (gs.map flat1).flatten

lemma groupsContent_append (gs hs : List FieldGroup) :
    groupsContent (gs ++ hs) = groupsContent gs ++ groupsContent hs := by
  simp [groupsContent]

lemma content_foldl_active (fs : List FormField) :
    ∀ (gs : List FieldGroup) (cg : FieldGroup),
      groupsContent (flushGroups (fs.foldl groupStep (gs, some cg))) =
        groupsContent gs ++ flat1 cg ++ fs := by
  induction fs with
  | nil =>
    intro gs cg
    simp [flushGroups, groupsContent_append, groupsContent, flat1]
  | cons f fs ih =>
    intro gs cg
    show groupsContent (flushGroups (List.foldl groupStep (groupStep (gs, some cg) f) fs)) = _
    by_cases hc : isCollapse f
    · have hstep : groupStep (gs, some cg) f = (gs ++ [cg], some ⟨f, []⟩) := by
        simp [groupStep, hc]
      rw [hstep, ih]
      simp [groupsContent_append, groupsContent, flat1]
    · have hstep : groupStep (gs, some cg) f =
          (gs, some ⟨cg.collapseField, cg.childFields ++ [f]⟩) := by
        simp [groupStep, hc]
      rw [hstep, ih]
      simp [flat1]

lemma length_foldl_active (fs : List FormField) :
    ∀ (gs : List FieldGroup) (cg : FieldGroup),
      (flushGroups (fs.foldl groupStep (gs, some cg))).length =
        gs.length + 1 + (fs.filter isCollapse).length := by
  induction fs with
  | nil =>
    intro gs cg
    simp [flushGroups]
  | cons f fs ih =>
    intro gs cg
    show (flushGroups (List.foldl groupStep (groupStep (gs, some cg) f) fs)).length = _
    by_cases hc : isCollapse f
    · have hstep : groupStep (gs, some cg) f = (gs ++ [cg], some ⟨f, []⟩) := by
        simp [groupStep, hc]
      rw [hstep, ih]
      simp [hc]
      omega
    · have hstep : groupStep (gs, some cg) f =
          (gs, some ⟨cg.collapseField, cg.childFields ++ [f]⟩) := by
        simp [groupStep, hc]
      rw [hstep, ih]
      simp [hc]

lemma groupFields_cons_skip {f : FormField} (fs : List FormField)
    (hc : isCollapse f = false) : groupFields (f :: fs) = groupFields fs := by
  simp [groupFields, List.foldl, groupStep, hc]

lemma spacesToPlus_idem (s : String) :
    spacesToPlus (spacesToPlus s) = spacesToPlus s := by
  unfold spacesToPlus
  show (⟨List.map _ (List.map _ s.data)⟩ : String) = _
  rw [List.map_map]
  congr 1
  apply List.map_congr_left
  intro a _
  by_cases h : a = ' ' <;> simp [h]

lemma spacesToPlus_ne_empty {s : String} (h : s ≠ "") :
    spacesToPlus s ≠ "" := by
  intro hcontra
  apply h
  have hdata := congrArg String.data hcontra
  have : s.data.map (fun c => if c = ' ' then '+' else c) = [] := hdata
  have hnil : s.data = [] := List.map_eq_nil_iff.mp this
  exact String.ext hnil

/-! ### C3 — the grouper partitions the suffix from the first header -/

/-- **C3.** The Grouper produces at most as many groups as there are
`control_collapse` descriptors, and concatenating each group's header
followed by its members, in output order, reproduces the input suffix
starting at the first header (descriptors before the first header appear
in no group). -/
theorem C3_grouper_partitions_suffix (fs : List FormField) :
    (groupFields fs).length ≤ (fs.filter isCollapse).length ∧
    groupsContent (groupFields fs) = fs.dropWhile (fun f => !isCollapse f) := by
  induction fs with
  | nil =>
    exact ⟨by simp [groupFields, flushGroups], by simp [groupFields, flushGroups, groupsContent]⟩
  | cons f fs ih =>
    by_cases hc : isCollapse f
    · have hgf : groupFields (f :: fs) =
          flushGroups (fs.foldl groupStep ([], some ⟨f, []⟩)) := by
        simp [groupFields, List.foldl, groupStep, hc]
      constructor
      · rw [hgf, length_foldl_active]
        simp [List.filter_cons, hc]
        omega
      · rw [hgf, content_foldl_active]
        simp [groupsContent, flat1, List.dropWhile, hc]
    · have hc' : isCollapse f = false := by simpa using hc
      rw [groupFields_cons_skip fs hc']
      constructor
      · calc (groupFields fs).length ≤ (fs.filter isCollapse).length := ih.1
          _ ≤ ((f :: fs).filter isCollapse).length := by simp [List.filter, hc']
      · rw [ih.2]
        simp [List.dropWhile, hc']

/-! ### C4 — extractor sequence numbers are the contiguous run 1..n -/

lemma mkField_order (el : RawElem) (ord : Nat) : (mkField el ord).order = ord := rfl

lemma enumFrom_map_fst_succ {α : Type} (l : List α) :
    ∀ i : Nat, (List.enumFrom i l).map (fun p => p.1 + 1) = List.range' (i + 1) l.length := by
  induction l with
  | nil => intro i; simp [List.enumFrom]
  | cons a l ih =>
    intro i
    simp only [List.enumFrom, List.map_cons, List.length_cons, List.range'_succ]
    exact congrArg _ (ih (i + 1))

/-- **C4.** The Field Extractor's `order` values form the contiguous
strictly increasing run `1, 2, ..., n` where `n` is the number of candidate
elements considered (section list items plus the appended submit element
when not already among them); in particular they are unique. -/
theorem C4_sequence_contiguous_from_one (sectionItems : List RawElem)
    (buttonElement : Option RawElem) :
    (extractFieldsFromDOM sectionItems buttonElement).map (fun f => f.order) =
      List.range' 1 (allCandidates sectionItems buttonElement).length ∧
    ((extractFieldsFromDOM sectionItems buttonElement).map (fun f => f.order)).Nodup := by
  have h : (extractFieldsFromDOM sectionItems buttonElement).map (fun f => f.order) =
      List.range' 1 (allCandidates sectionItems buttonElement).length := by
    unfold extractFieldsFromDOM
    rw [List.map_map]
    have hfun : ((fun f : FormField => f.order) ∘
        (fun p : Nat × RawElem => mkField p.2 (p.1 + 1))) = fun p => p.1 + 1 := by
      funext p
      exact mkField_order p.2 (p.1 + 1)
    rw [hfun]
    have : (allCandidates sectionItems buttonElement).enum =
        List.enumFrom 0 (allCandidates sectionItems buttonElement) := rfl
    rw [this, enumFrom_map_fst_succ]
  refine ⟨h, ?_⟩
  rw [h]
  exact List.nodup_range' _ _

/-! ### C6 — query-parameter decoding never surfaces an error -/

/-- **C6.** `parseQueryParameters` returns `null` (and, being a total
function of its inputs, surfaces no exception) whenever the query
parameter is absent or empty, the base64 decode fails, the UTF-8 decode
fails, or the JSON parse fails; and space characters are restored to `+`
before base64 decoding, so the result is invariant under that
restoration. -/
theorem C6_parse_query_null_on_failure (atobFn : String → Option String)
    (decodeUtf8 : List Nat → Option String)
    (parseJson : String → Option PrefillData) :
    parseQueryParameters none atobFn decodeUtf8 parseJson = none ∧
    parseQueryParameters (some "") atobFn decodeUtf8 parseJson = none ∧
    (∀ d, atobFn (spacesToPlus d) = none →
      parseQueryParameters (some d) atobFn decodeUtf8 parseJson = none) ∧
    (∀ d b, atobFn (spacesToPlus d) = some b →
      decodeUtf8 (bytesOfBinaryString b) = none →
      parseQueryParameters (some d) atobFn decodeUtf8 parseJson = none) ∧
    (∀ d b s, atobFn (spacesToPlus d) = some b →
      decodeUtf8 (bytesOfBinaryString b) = some s → parseJson s = none →
      parseQueryParameters (some d) atobFn decodeUtf8 parseJson = none) ∧
    (∀ d, parseQueryParameters (some d) atobFn decodeUtf8 parseJson =
      parseQueryParameters (some (spacesToPlus d)) atobFn decodeUtf8 parseJson) := by
  refine ⟨rfl, rfl, ?_, ?_, ?_, ?_⟩
  · intro d h
    by_cases hd : d = ""
    · simp [parseQueryParameters, hd]
    · simp [parseQueryParameters, hd, h]
  · intro d b hb hdec
    by_cases hd : d = ""
    · simp [parseQueryParameters, hd]
    · simp [parseQueryParameters, hd, hb, hdec]
  · intro d b s hb hdec hj
    by_cases hd : d = ""
    · simp [parseQueryParameters, hd]
    · simp [parseQueryParameters, hd, hb, hdec, hj]
  · intro d
    by_cases hd : d = ""
    · have : spacesToPlus "" = "" := rfl
      rw [hd, this]
    · have hne := spacesToPlus_ne_empty hd
      simp only [parseQueryParameters, if_neg hd, if_neg hne, spacesToPlus_idem]

/-- Witness for C6 at concrete inputs. -/
theorem C6_witness :
    parseQueryParameters (some "ab c") (fun s => some s)
      (fun _ => none) (fun _ => none) = none ∧
    parseQueryParameters (some "ab c") (fun s => some s)
      (fun _ => none) (fun _ => none) =
      parseQueryParameters (some (spacesToPlus "ab c")) (fun s => some s)
        (fun _ => none) (fun _ => none) := by
  constructor
  · exact (C6_parse_query_null_on_failure (fun s => some s) (fun _ => none)
      (fun _ => none)).2.2.2.1 "ab c" (spacesToPlus "ab c") rfl rfl
  · exact (C6_parse_query_null_on_failure (fun s => some s) (fun _ => none)
      (fun _ => none)).2.2.2.2.2 "ab c"

/-! ### C8 — label/key normalization is idempotent, whitespace-insensitive -/

/-- **C8.** Removing all whitespace is idempotent, and inserting (or
removing) a run of whitespace characters anywhere in a string does not
change its normalization — hence two strings differing only in interior or
exterior whitespace normalize to the same string. -/
theorem C8_normalize_idempotent_ws_invariant :
    (∀ s, normalizeLabel (normalizeLabel s) = normalizeLabel s) ∧
    (∀ u v w : String, v.data.all isJsWhitespace →
      normalizeLabel (u ++ v ++ w) = normalizeLabel (u ++ w)) := by
  constructor
  · intro s
    unfold normalizeLabel
    show (⟨List.filter _ (List.filter _ s.data)⟩ : String) = _
    rw [List.filter_filter]
    congr 1
    apply List.filter_congr
    intro a _
    cases isJsWhitespace a <;> rfl
  · intro u v w hv
    unfold normalizeLabel
    rw [String.data_append, String.data_append, String.data_append,
      List.filter_append, List.filter_append, List.filter_append]
    have hnil : v.data.filter (fun c => !isJsWhitespace c) = [] := by
      rw [List.filter_eq_nil_iff]
      intro a ha
      have := List.all_eq_true.mp hv a ha
      simp [this]
    rw [hnil]
    simp

/-- Witness for C8 at concrete inputs. -/
theorem C8_witness :
    normalizeLabel (normalizeLabel " リクエスト 内容 ") = normalizeLabel " リクエスト 内容 " ∧
    normalizeLabel ("リクエスト" ++ " \t" ++ "内容") = normalizeLabel ("リクエスト" ++ "内容") := by
  constructor
  · exact C8_normalize_idempotent_ws_invariant.1 " リクエスト 内容 "
  · exact C8_normalize_idempotent_ws_invariant.2 "リクエスト" " \t" "内容" (by decide)

/-! ### Lemmas about the document model -/

lemma find?_updateElem_self (l : List (String × Elem)) (id : String)
    (f : Elem → Elem) :
    (updateElem l id f).find? (fun p => p.1 == id) =
      (l.find? (fun p => p.1 == id)).map (fun p => (p.1, f p.2)) := by
  induction l with
  | nil => rfl
  | cons p rest ih =>
    by_cases h : p.1 = id
    · have hb : (p.1 == id) = true := by simp [h]
      simp [updateElem, h, List.find?_cons, hb]
    · have hb : (p.1 == id) = false := by simp [h]
      simp [updateElem, h, List.find?_cons, hb, ih]

lemma find?_updateElem_ne (l : List (String × Elem)) (id j : String)
    (f : Elem → Elem) (h : j ≠ id) :
    (updateElem l id f).find? (fun p => p.1 == j) =
      l.find? (fun p => p.1 == j) := by
  induction l with
  | nil => rfl
  | cons p rest ih =>
    by_cases hp : p.1 = id
    · have hb : (id == j) = false := by
        simp only [beq_eq_false_iff_ne]
        exact Ne.symm h
      simp [updateElem, hp, List.find?_cons, hb]
    · by_cases hj : p.1 = j
      · have hb : (p.1 == j) = true := by simp [hj]
        simp [updateElem, hp, List.find?_cons, hb]
      · have hb : (p.1 == j) = false := by simp [hj]
        simp [updateElem, hp, List.find?_cons, hb, ih]

lemma findElem_updateFirst_self (d : Doc) (id : String) (f : Elem → Elem) :
    findElem (updateFirst d id f) id = (findElem d id).map f := by
  unfold findElem updateFirst
  rw [find?_updateElem_self]
  cases d.elems.find? (fun p => p.1 == id) <;> rfl

lemma findElem_updateFirst_ne (d : Doc) (id j : String) (f : Elem → Elem)
    (h : j ≠ id) : findElem (updateFirst d id f) j = findElem d j := by
  unfold findElem updateFirst
  rw [find?_updateElem_ne _ _ _ _ h]

lemma findElem_map_updateFirst {α : Type} (π : Elem → α) (d : Doc)
    (id j : String) (f : Elem → Elem) (hf : ∀ e, π (f e) = π e) :
    (findElem (updateFirst d id f) j).map π = (findElem d j).map π := by
  by_cases h : j = id
  · subst h
    rw [findElem_updateFirst_self]
    cases findElem d j with
    | none => rfl
    | some e => simp [hf]
  · rw [findElem_updateFirst_ne _ _ _ _ h]

lemma findElem_eq_find? (d : Doc) (j : String) :
    findElem d j = (d.elems.find? (fun p => p.1 == j)).map (fun p => p.2) := by
  unfold findElem
  cases d.elems.find? (fun p => p.1 == j) <;> rfl

lemma find?_check_proj {α : Type} (π : Elem → α)
    (hπ : ∀ (e : Elem) (cs : List InputControl),
      π { e with controls := cs } = π e) (n v j : String) :
    ∀ l : List (String × Elem),
      ((checkFirstRadioInElems n v l).find? (fun p => p.1 == j)).map
          (fun p => π p.2) =
        (l.find? (fun p => p.1 == j)).map (fun p => π p.2) := by
  intro l
  induction l with
  | nil => rfl
  | cons pe rest ih =>
    obtain ⟨k, e⟩ := pe
    by_cases hm : e.controls.any (matchesRadioSel n v)
    · by_cases hk : k = j
      · have hb : (k == j) = true := by simp [hk]
        simp [checkFirstRadioInElems, hm, List.find?_cons, hb, hπ]
      · have hb : (k == j) = false := by simp [hk]
        simp [checkFirstRadioInElems, hm, List.find?_cons, hb]
    · by_cases hk : k = j
      · have hb : (k == j) = true := by simp [hk]
        simp [checkFirstRadioInElems, hm, List.find?_cons, hb]
      · have hb : (k == j) = false := by simp [hk]
        simp [checkFirstRadioInElems, hm, List.find?_cons, hb, ih]

lemma findElem_check_proj {α : Type} (π : Elem → α)
    (hπ : ∀ (e : Elem) (cs : List InputControl),
      π { e with controls := cs } = π e) (n v j : String) (d : Doc) :
    (findElem ⟨checkFirstRadioInElems n v d.elems⟩ j).map π =
      (findElem d j).map π := by
  rw [findElem_eq_find?, findElem_eq_find?, Option.map_map, Option.map_map]
  exact find?_check_proj π hπ n v j d.elems

lemma applyDateTime_radioItems (v : String) (e : Elem) :
    (applyDateTime v e).radioItems = e.radioItems := by
  obtain ⟨sv, ri, cm, lm, yi, mi, di, cs⟩ := e
  cases lm <;> cases yi <;> cases mi <;> cases di <;>
    rcases h : splitDash v with _ | ⟨a, _ | ⟨b, _ | ⟨c, _ | ⟨d, t⟩⟩⟩⟩ <;>
    simp [applyDateTime, h]

lemma applyDateTime_collapseMid (v : String) (e : Elem) :
    (applyDateTime v e).collapseMid = e.collapseMid := by
  obtain ⟨sv, ri, cm, lm, yi, mi, di, cs⟩ := e
  cases lm <;> cases yi <;> cases mi <;> cases di <;>
    rcases h : splitDash v with _ | ⟨a, _ | ⟨b, _ | ⟨c, _ | ⟨d, t⟩⟩⟩⟩ <;>
    simp [applyDateTime, h]

lemma setHeadControlValue_radioItems (v : String) (e : Elem) :
    (setHeadControlValue v e).radioItems = e.radioItems := by
  unfold setHeadControlValue
  split <;> rfl

lemma setHeadControlValue_collapseMid (v : String) (e : Elem) :
    (setHeadControlValue v e).collapseMid = e.collapseMid := by
  unfold setHeadControlValue
  split <;> rfl

lemma applyGenericValue_proj {α : Type} (π : Elem → α)
    (hset : ∀ v e, π (setHeadControlValue v e) = π e)
    (hctl : ∀ (e : Elem) (cs : List InputControl),
      π { e with controls := cs } = π e)
    (doc : Doc) (tid : String) (el : Elem) (v j : String) :
    (findElem (applyGenericValue doc tid el v) j).map π =
      (findElem doc j).map π := by
  unfold applyGenericValue
  split
  · rfl
  · split
    · exact findElem_map_updateFirst π _ _ _ _ (hset v)
    · split
      · split
        · exact findElem_check_proj π hctl _ _ _ _
        · exact findElem_map_updateFirst π _ _ _ _ (hset v)
      · exact findElem_map_updateFirst π _ _ _ _ (hset v)

lemma applyField_proj {α : Type} (π : Elem → α)
    (hdt : ∀ v e, π (applyDateTime v e) = π e)
    (hset : ∀ v e, π (setHeadControlValue v e) = π e)
    (hctl : ∀ (e : Elem) (cs : List InputControl),
      π { e with controls := cs } = π e)
    (g : FieldGroup) (doc : Doc) (kv : String × String) (j : String) :
    (findElem (applyField g doc kv) j).map π = (findElem doc j).map π := by
  unfold applyField
  dsimp only
  repeat' split
  all_goals
    first
      | rfl
      | exact findElem_map_updateFirst π _ _ _ _ (hdt _)
      | exact applyGenericValue_proj π hset hctl _ _ _ _ _

lemma foldl_applyField_proj {α : Type} (π : Elem → α)
    (hdt : ∀ v e, π (applyDateTime v e) = π e)
    (hset : ∀ v e, π (setHeadControlValue v e) = π e)
    (hctl : ∀ (e : Elem) (cs : List InputControl),
      π { e with controls := cs } = π e)
    (g : FieldGroup) (kvs : List (String × String)) :
    ∀ (doc : Doc) (j : String),
      (findElem (kvs.foldl (applyField g) doc) j).map π =
        (findElem doc j).map π := by
  induction kvs with
  | nil => intro doc j; rfl
  | cons kv kvs ih =>
    intro doc j
    rw [List.foldl_cons, ih, applyField_proj π hdt hset hctl]

lemma headerStep_proj {α : Type} (π : Elem → α)
    (hcm : ∀ (e : Elem) (s : String), π { e with collapseMid := some s } = π e)
    (g : FieldGroup) (gd : QueryGroupData) (doc : Doc) (j : String) :
    (findElem (headerStep g gd doc) j).map π = (findElem doc j).map π := by
  unfold headerStep
  split
  · rfl
  · split
    · rfl
    · split
      · rfl
      · split
        · rfl
        · split
          · rfl
          · exact findElem_map_updateFirst π _ _ _ _ (fun e => hcm e _)

lemma headerStep_of_empty (g : FieldGroup) (gd : QueryGroupData) (doc : Doc)
    (h : gd.headerText = "") : headerStep g gd doc = doc := by
  unfold headerStep
  repeat' split
  all_goals rfl

lemma branchReduce_proj {α : Type} (π : Elem → α)
    (hri : ∀ (e : Elem) (l : List Nat), π { e with radioItems := l } = π e)
    (pd : Option PrefillData) (i : Nat) (rid : String) (d : Doc) (j : String) :
    (findElem (branchReduce pd i rid d) j).map π = (findElem d j).map π := by
  unfold branchReduce
  split
  · rfl
  · exact findElem_map_updateFirst π _ _ _ _ (fun e => hri e _)

lemma alignedGroupData_none (i : Nat) : alignedGroupData none i = none := rfl

lemma processGroups_eq_foldl (pd : Option PrefillData) :
    ∀ (gs : List FieldGroup) (i : Nat) (d : Doc),
      processGroups pd i gs d =
        (List.enumFrom i gs).foldl (fun dd p => processGroup pd p.1 p.2 dd) d := by
  intro gs
  induction gs with
  | nil => intro i d; rfl
  | cons g rest ih =>
    intro i d
    simp only [processGroups, List.enumFrom, List.foldl_cons]
    exact ih (i + 1) _

/-! ### C1 — the exception channel: correspondence lemmas -/

lemma applyGenericValueE_cases (selValid : String → Bool) (doc : Doc)
    (tid : String) (el : Elem) (v : String) :
    applyGenericValueE selValid doc tid el v =
      Except.ok (applyGenericValue doc tid el v) ∨
    ∃ err, selValid err = false ∧
      applyGenericValueE selValid doc tid el v = Except.error err := by
  unfold applyGenericValueE applyGenericValue
  repeat' split
  all_goals first
    | (left; rfl)
    | (refine Or.inr ⟨_, ?_, rfl⟩; simp_all)

lemma applyFieldE_cases (selValid : String → Bool) (g : FieldGroup) (doc : Doc)
    (kv : String × String) :
    applyFieldE selValid g doc kv = Except.ok (applyField g doc kv) ∨
    ∃ err, selValid err = false ∧
      applyFieldE selValid g doc kv = Except.error err := by
  unfold applyFieldE applyField
  dsimp only
  repeat' split
  all_goals first
    | (left; rfl)
    | exact applyGenericValueE_cases _ _ _ _ _

lemma headerStepE_cases (selValid : String → Bool) (g : FieldGroup)
    (gd : QueryGroupData) (d : Doc) :
    headerStepE selValid g gd d = Except.ok (headerStep g gd d) ∨
    ∃ err, selValid err = false ∧
      headerStepE selValid g gd d = Except.error err := by
  cases hid : g.collapseField.id with
  | none => left; simp [headerStepE, headerStep, hid]
  | some cid =>
    by_cases hc : cid = ""
    · left; simp [headerStepE, headerStep, hid, hc]
    · cases hv : selValid (headerSelector cid) with
      | true => left; simp [headerStepE, hid, hc, hv]
      | false =>
        right
        exact ⟨headerSelector cid, hv, by simp [headerStepE, hid, hc, hv]⟩

lemma applyFieldsE_cases (selValid : String → Bool) (g : FieldGroup) :
    ∀ (kvs : List (String × String)) (d : Doc),
      applyFieldsE selValid g kvs d = Except.ok (kvs.foldl (applyField g) d) ∨
      ∃ err, selValid err = false ∧
        applyFieldsE selValid g kvs d = Except.error err := by
  intro kvs
  induction kvs with
  | nil => intro d; exact Or.inl rfl
  | cons kv rest ih =>
    intro d
    cases applyFieldE_cases selValid g d kv with
    | inl hok =>
      have heq : applyFieldsE selValid g (kv :: rest) d =
          applyFieldsE selValid g rest (applyField g d kv) := by
        simp only [applyFieldsE, hok]
      rw [heq, List.foldl_cons]
      exact ih _
    | inr herr =>
      obtain ⟨err, hfalse, herr⟩ := herr
      exact Or.inr ⟨err, hfalse, by simp only [applyFieldsE, herr]⟩

lemma processGroupE_cases (selValid : String → Bool) (pd : Option PrefillData)
    (i : Nat) (g : FieldGroup) (d : Doc) :
    processGroupE selValid pd i g d = Except.ok (processGroup pd i g d) ∨
    ∃ err, selValid err = false ∧
      processGroupE selValid pd i g d = Except.error err := by
  cases hf : g.childFields.find? isRequestContent with
  | none => left; simp only [processGroupE, processGroup, hf]
  | some rf =>
    cases hi : rf.id with
    | none => left; simp only [processGroupE, processGroup, hf, hi]
    | some rid =>
      by_cases hr : rid = ""
      · left; simp only [processGroupE, processGroup, hf, hi, if_pos hr]
      · cases hgd : alignedGroupData pd i with
        | none =>
          left
          simp only [processGroupE, processGroup, hf, hi, if_neg hr, hgd]
        | some gd =>
          simp only [processGroupE, processGroup, hf, hi, if_neg hr, hgd]
          cases headerStepE_cases selValid g gd (branchReduce pd i rid d) with
          | inl hok =>
            rw [hok]
            exact applyFieldsE_cases selValid g gd.fields
              (headerStep g gd (branchReduce pd i rid d))
          | inr herr =>
            obtain ⟨err, hfalse, herr⟩ := herr
            rw [herr]
            exact Or.inr ⟨err, hfalse, rfl⟩

lemma processGroupsE_cases (selValid : String → Bool) (pd : Option PrefillData) :
    ∀ (gs : List FieldGroup) (i : Nat) (d : Doc),
      processGroupsE selValid pd i gs d =
        Except.ok (processGroups pd i gs d) ∨
      ∃ err, selValid err = false ∧
        processGroupsE selValid pd i gs d = Except.error err := by
  intro gs
  induction gs with
  | nil => intro i d; exact Or.inl rfl
  | cons g rest ih =>
    intro i d
    cases processGroupE_cases selValid pd i g d with
    | inl hok =>
      have heq : processGroupsE selValid pd i (g :: rest) d =
          processGroupsE selValid pd (i + 1) rest (processGroup pd i g d) := by
        simp only [processGroupsE, hok]
      rw [heq]
      exact ih (i + 1) _
    | inr herr =>
      obtain ⟨err, hfalse, herr⟩ := herr
      exact Or.inr ⟨err, hfalse, by simp only [processGroupsE, herr]⟩

/-! ### C1 — corrected: no-throw only under selector validity -/

/-- **C1, counterexample.** The claim as stated — `applyDataToForm` never
propagates an exception and an exception in one group cannot abort the
following groups — is false of the source: there is no `try`/`catch`, and
a payload value containing `"` applied to a radio-typed field makes the
interpolated `input[name="…"][value="…"]` selector invalid, so the
`SyntaxError` propagates to the caller and the remaining groups are never
processed.  Concretely, with the host grammar fragment `cssSelectorValid`,
the run over `[badGroup, secondGroup]` errors on the first group's field
application, while the second group on its own would have been processed
normally. -/
theorem C1_counterexample :
    applyDataToFormE cssSelectorValid [badGroup, secondGroup] (some badPrefill)
        badDoc = Except.error (radioSelector "qr_radio" "x\"y") ∧
    processGroupsE cssSelectorValid (some badPrefill) 1 [secondGroup] badDoc =
      Except.ok (processGroups (some badPrefill) 1 [secondGroup] badDoc) := by
  constructor
  · rfl
  · rfl

/-- **C1, amended.** `applyDataToForm` propagates no exception and
processes its groups in isolation only when every selector it interpolates
parses: with the host selector parser modelled as a validity judgement
`selValid` (`false` standing for the `SyntaxError` its rejection raises,
uncaught in the source), (i) a parser accepting every selector makes the
exception-aware run return normally with exactly the total model's result;
(ii) every error-free run coincides with the total model, which (v) is the
left fold of the isolated per-group step over the indexed groups; but
(iii) an exception raised while processing one group propagates and aborts
the processing of all subsequent groups; and (iv) a group failing its
structural precondition (no `リクエスト内容` member) is a skip that cannot
throw, with processing continuing. -/
theorem C1_no_throw_only_if_selectors_parse :
    (∀ (selValid : String → Bool) (formGroups : List FieldGroup)
        (prefillData : Option PrefillData) (doc : Doc),
      (∀ s, selValid s = true) →
      applyDataToFormE selValid formGroups prefillData doc =
        Except.ok (applyDataToForm formGroups prefillData doc)) ∧
    (∀ (selValid : String → Bool) (formGroups : List FieldGroup)
        (prefillData : Option PrefillData) (doc d' : Doc),
      applyDataToFormE selValid formGroups prefillData doc = Except.ok d' →
      d' = applyDataToForm formGroups prefillData doc) ∧
    (∀ (selValid : String → Bool) (prefillData : Option PrefillData)
        (index : Nat) (g : FieldGroup) (rest : List FieldGroup) (doc : Doc)
        (err : String),
      processGroupE selValid prefillData index g doc = Except.error err →
      processGroupsE selValid prefillData index (g :: rest) doc =
        Except.error err) ∧
    (∀ (selValid : String → Bool) (prefillData : Option PrefillData)
        (index : Nat) (g : FieldGroup) (doc : Doc),
      g.childFields.find? isRequestContent = none →
      processGroupE selValid prefillData index g doc = Except.ok doc) ∧
    (∀ (formGroups : List FieldGroup) (prefillData : Option PrefillData)
        (doc : Doc),
      applyDataToForm formGroups prefillData doc =
        formGroups.enum.foldl (fun dd p => processGroup prefillData p.1 p.2 dd)
          (applyTopLevel prefillData doc)) := by
  refine ⟨?_, ?_, ?_, ?_, ?_⟩
  · intro selValid gs pd d hval
    cases processGroupsE_cases selValid pd gs 0 (applyTopLevel pd d) with
    | inl h => exact h
    | inr h =>
      obtain ⟨err, hfalse, _⟩ := h
      rw [hval err] at hfalse
      exact Bool.noConfusion hfalse
  · intro selValid gs pd d d' hok
    cases processGroupsE_cases selValid pd gs 0 (applyTopLevel pd d) with
    | inl h =>
      rw [show applyDataToFormE selValid gs pd d =
        processGroupsE selValid pd 0 gs (applyTopLevel pd d) from rfl, h] at hok
      exact (Except.ok.inj hok).symm
    | inr h =>
      obtain ⟨err, _, herr⟩ := h
      rw [show applyDataToFormE selValid gs pd d =
        processGroupsE selValid pd 0 gs (applyTopLevel pd d) from rfl, herr] at hok
      exact Except.noConfusion hok
  · intro selValid pd i g rest d err h
    simp only [processGroupsE, h]
  · intro selValid pd i g d h
    simp only [processGroupE, h]
  · intro gs pd d
    unfold applyDataToForm
    exact processGroups_eq_foldl pd gs 0 _

/-- Witness for C1 at concrete inputs: an all-accepting parser gives the
total model's result; a rejected radio selector aborts the whole pass from
the failing group on; a group without the request-content member is a
no-throw skip. -/
theorem C1_witness :
    applyDataToFormE (fun _ => true) [sampleGroup] none sampleDoc =
      Except.ok (applyDataToForm [sampleGroup] none sampleDoc) ∧
    processGroupsE cssSelectorValid (some badPrefill) 0 [badGroup, secondGroup]
        badDoc = Except.error (radioSelector "qr_radio" "x\"y") ∧
    processGroupE (fun _ => true) none 0 sampleGroupNoRequest sampleDoc =
      Except.ok sampleDoc := by
  refine ⟨?_, ?_, ?_⟩
  · exact C1_no_throw_only_if_selectors_parse.1 (fun _ => true) [sampleGroup]
      none sampleDoc (fun s => rfl)
  · exact C1_no_throw_only_if_selectors_parse.2.2.1 cssSelectorValid
      (some badPrefill) 0 badGroup [secondGroup] badDoc
      (radioSelector "qr_radio" "x\"y") rfl
  · exact C1_no_throw_only_if_selectors_parse.2.2.2.1 (fun _ => true) none 0
      sampleGroupNoRequest sampleDoc rfl

/-! ### C2 — branch removal on a 4-item choice list -/

lemma eq_four_of_length {l : List Nat} (h : l.length = 4) :
    ∃ a b c d, l = [a, b, c, d] := by
  rcases l with _ | ⟨a, _ | ⟨b, _ | ⟨c, _ | ⟨d, _ | ⟨x, t⟩⟩⟩⟩⟩
  · simp only [List.length_nil] at h; omega
  · simp only [List.length_cons, List.length_nil] at h; omega
  · simp only [List.length_cons, List.length_nil] at h; omega
  · simp only [List.length_cons, List.length_nil] at h; omega
  · exact ⟨a, b, c, d, rfl⟩
  · simp only [List.length_cons] at h
    omega

lemma eraseIdx_one_zero_eq_drop {l : List Nat} (h : 2 ≤ l.length) :
    (l.eraseIdx 1).eraseIdx 0 = l.drop 2 := by
  rcases l with _ | ⟨a, _ | ⟨b, t⟩⟩
  · simp at h
  · simp at h
  · rfl

lemma reduceRadioItems_present_four {l : List Nat} (h : l.length = 4) :
    reduceRadioItems l true = l.take 2 := by
  obtain ⟨a, b, c, d, rfl⟩ := eq_four_of_length h
  rfl

lemma reduceRadioItems_absent {l : List Nat} (h : 4 ≤ l.length) :
    reduceRadioItems l false = l.drop 2 := by
  unfold reduceRadioItems
  rw [if_pos h]
  exact eraseIdx_one_zero_eq_drop (by omega)

/-- **C2.** For a group whose request-content field resolves to an element
with exactly 4 choice items: when the aligned payload entry is present the
items at original indices 3 and 2 are removed (highest first) and the two
lowest-index items remain in original relative order; when it is absent
the items at indices 1 and 0 are removed and the two highest-index items
remain. -/
theorem C2_branch_removal_four_items (pd : Option PrefillData) (i : Nat)
    (g : FieldGroup) (d : Doc) (rf : FormField) (rid : String) (e : Elem)
    (hrf : g.childFields.find? isRequestContent = some rf)
    (hid : rf.id = some rid) (hne : rid ≠ "")
    (he : findElem d rid = some e) (hlen : e.radioItems.length = 4) :
    (findElem (processGroup pd i g d) rid).map Elem.radioItems =
      some (if (alignedGroupData pd i).isSome then e.radioItems.take 2
        else e.radioItems.drop 2) := by
  have hbr : findElem (branchReduce pd i rid d) rid = some
      { e with radioItems :=
          reduceRadioItems e.radioItems (alignedGroupData pd i).isSome } := by
    unfold branchReduce
    rw [he, findElem_updateFirst_self, he]
    rfl
  simp only [processGroup, hrf, hid, if_neg hne]
  cases hgd : alignedGroupData pd i with
  | none =>
    rw [hbr, hgd]
    simp [reduceRadioItems_absent (le_of_eq hlen.symm)]
  | some gd =>
    rw [foldl_applyField_proj Elem.radioItems applyDateTime_radioItems
        setHeadControlValue_radioItems (fun e cs => rfl) g gd.fields,
      headerStep_proj Elem.radioItems (fun e s => rfl) g gd,
      hbr, hgd]
    simp [reduceRadioItems_present_four hlen]

/-- Witness for C2 at concrete inputs. -/
theorem C2_witness :
    (findElem (processGroup (some samplePrefill) 0 sampleGroup sampleDoc) "rq1").map
        Elem.radioItems =
      some (if (alignedGroupData (some samplePrefill) 0).isSome
        then sampleElem.radioItems.take 2 else sampleElem.radioItems.drop 2) :=
  C2_branch_removal_four_items (some samplePrefill) 0 sampleGroup sampleDoc
    sampleRequestField "rq1" sampleElem (by decide) (by decide) (by decide)
    (by decide) (by decide)

/-! ### C5 — date/time value application -/

lemma applyDateTime_liteModeInput (v : String) (e : Elem) :
    (applyDateTime v e).liteModeInput =
      if e.liteModeInput.isSome then some v else none := by
  obtain ⟨sv, ri, cm, lm, yi, mi, di, cs⟩ := e
  cases lm <;> cases yi <;> cases mi <;> cases di <;>
    rcases h : splitDash v with _ | ⟨a, _ | ⟨b, _ | ⟨c, _ | ⟨d, t⟩⟩⟩⟩ <;>
    simp [applyDateTime, h]

lemma applyDateTime_split_three (v : String) (e : Elem) (y m dd : String)
    (h : splitDash v = [y, m, dd]) :
    (applyDateTime v e).yearInput = (if e.yearInput.isSome then some y else none) ∧
    (applyDateTime v e).monthInput = (if e.monthInput.isSome then some m else none) ∧
    (applyDateTime v e).dayInput = (if e.dayInput.isSome then some dd else none) := by
  obtain ⟨sv, ri, cm, lm, yi, mi, di, cs⟩ := e
  cases lm <;> cases yi <;> cases mi <;> cases di <;> simp [applyDateTime, h]

lemma applyDateTime_split_not_three (v : String) (e : Elem)
    (h : (splitDash v).length ≠ 3) :
    (applyDateTime v e).yearInput = e.yearInput ∧
    (applyDateTime v e).monthInput = e.monthInput ∧
    (applyDateTime v e).dayInput = e.dayInput := by
  obtain ⟨sv, ri, cm, lm, yi, mi, di, cs⟩ := e
  rcases hs : splitDash v with _ | ⟨a, _ | ⟨b, _ | ⟨c, _ | ⟨dd, t⟩⟩⟩⟩
  · cases lm <;> simp [applyDateTime, hs]
  · cases lm <;> simp [applyDateTime, hs]
  · cases lm <;> simp [applyDateTime, hs]
  · exact absurd (by simp [hs]) h
  · cases lm <;> simp [applyDateTime, hs]

/-- **C5.** When a date/time field is matched, the visible date input
(when present) receives the applied value; if splitting the value on `-`
yields exactly three parts, each present hidden input receives its part
verbatim and independently; otherwise all hidden inputs are left
untouched.  The last conjunct ties this to `applyField`: a key resolving
to a `control_datetime` field routes the (unpadded) value into
`applyDateTime` on the field's container. -/
theorem C5_datetime_split_semantics (v : String) (e : Elem) :
    ((applyDateTime v e).liteModeInput =
      if e.liteModeInput.isSome then some v else none) ∧
    (∀ y m dd, splitDash v = [y, m, dd] →
      (applyDateTime v e).yearInput = (if e.yearInput.isSome then some y else none) ∧
      (applyDateTime v e).monthInput = (if e.monthInput.isSome then some m else none) ∧
      (applyDateTime v e).dayInput = (if e.dayInput.isSome then some dd else none)) ∧
    ((splitDash v).length ≠ 3 →
      (applyDateTime v e).yearInput = e.yearInput ∧
      (applyDateTime v e).monthInput = e.monthInput ∧
      (applyDateTime v e).dayInput = e.dayInput) ∧
    (∀ (g : FieldGroup) (d : Doc) (key : String) (tf : FormField) (tid : String),
      key ≠ "リクエスト内容" → key ≠ "timeOption" →
      normalizeLabel key ≠ "時" → normalizeLabel key ≠ "分" →
      g.childFields.find? (matchesNormalizedKey (normalizeLabel key)) = some tf →
      tf.id = some tid → tid ≠ "" → (findElem d tid).isSome →
      tf.type = some "control_datetime" →
      applyField g d (key, v) = updateFirst d tid (applyDateTime v)) := by
  refine ⟨applyDateTime_liteModeInput v e,
    fun y m dd h => applyDateTime_split_three v e y m dd h,
    fun h => applyDateTime_split_not_three v e h, ?_⟩
  intro g d key tf tid h1 h2 h3 h4 hfind hid hne hsome htype
  obtain ⟨el, hel⟩ := Option.isSome_iff_exists.mp hsome
  simp [applyField, h1, h2, h3, h4, hfind, hid, hne, hel, htype]

/-- Witness for C5 at concrete inputs (spec examples `"2024-5-03"` and
`"2024/05/03"`). -/
theorem C5_witness :
    ((applyDateTime "2024-5-03" sampleElem).yearInput =
        (if sampleElem.yearInput.isSome then some "2024" else none) ∧
      (applyDateTime "2024-5-03" sampleElem).monthInput =
        (if sampleElem.monthInput.isSome then some "5" else none) ∧
      (applyDateTime "2024-5-03" sampleElem).dayInput =
        (if sampleElem.dayInput.isSome then some "03" else none)) ∧
    ((applyDateTime "2024/05/03" sampleElem).yearInput = sampleElem.yearInput ∧
      (applyDateTime "2024/05/03" sampleElem).monthInput = sampleElem.monthInput ∧
      (applyDateTime "2024/05/03" sampleElem).dayInput = sampleElem.dayInput) := by
  constructor
  · exact (C5_datetime_split_semantics "2024-5-03" sampleElem).2.1 "2024" "5" "03" rfl
  · exact (C5_datetime_split_semantics "2024/05/03" sampleElem).2.2.1 (by decide)

/-! ### C7 — null payload: branch reduction only -/

lemma requestId_spec {g : FieldGroup} {rf : FormField} {rid : String}
    (hf : g.childFields.find? isRequestContent = some rf)
    (hi : rf.id = some rid) (hr : rid ≠ "") : requestId g = some rid := by
  unfold requestId
  simp only [hf, hi, if_neg hr]

lemma requestId_eq_some_elim {g : FieldGroup} {rid : String}
    (h : requestId g = some rid) :
    ∃ rf, g.childFields.find? isRequestContent = some rf ∧
      rf.id = some rid ∧ rid ≠ "" := by
  unfold requestId at h
  cases hf : g.childFields.find? isRequestContent with
  | none =>
    simp only [hf] at h
    exact Option.noConfusion h
  | some rf =>
    simp only [hf] at h
    cases hi : rf.id with
    | none =>
      simp only [hi] at h
      exact Option.noConfusion h
    | some r =>
      simp only [hi] at h
      by_cases hr : r = ""
      · rw [if_pos hr] at h; exact Option.noConfusion h
      · rw [if_neg hr] at h
        obtain rfl : r = rid := Option.some.inj h
        exact ⟨rf, rfl, hi, hr⟩

lemma processGroup_null_untouched (i : Nat) (g : FieldGroup) (d : Doc)
    (rid : String) (h : requestId g ≠ some rid) :
    findElem (processGroup none i g d) rid = findElem d rid := by
  cases hf : g.childFields.find? isRequestContent with
  | none => simp only [processGroup, hf]
  | some rf =>
    cases hi : rf.id with
    | none => simp only [processGroup, hf, hi]
    | some r =>
      by_cases hr : r = ""
      · simp only [processGroup, hf, hi, if_pos hr]
      · simp only [processGroup, hf, hi, if_neg hr, alignedGroupData_none]
        have hr' : r ≠ rid := fun hcontra => h (hcontra ▸ requestId_spec hf hi hr)
        unfold branchReduce
        cases hfe : findElem d r with
        | none => rfl
        | some e => exact findElem_updateFirst_ne _ _ _ _ (Ne.symm hr')

lemma processGroups_null_untouched :
    ∀ (gs : List FieldGroup) (i : Nat) (d : Doc) (rid : String),
      (∀ g ∈ gs, requestId g ≠ some rid) →
      findElem (processGroups none i gs d) rid = findElem d rid := by
  intro gs
  induction gs with
  | nil => intro i d rid _; rfl
  | cons g rest ih =>
    intro i d rid h
    show findElem (processGroups none (i + 1) rest (processGroup none i g d)) rid = _
    rw [ih (i + 1) _ rid (fun g' hg' => h g' (List.mem_cons_of_mem g hg')),
      processGroup_null_untouched i g d rid (h g (List.mem_cons_self g rest))]

lemma processGroup_null_reduce (i : Nat) (g : FieldGroup) (d : Doc)
    (rid : String) (e : Elem) (hg : requestId g = some rid)
    (he : findElem d rid = some e) (hlen : 4 ≤ e.radioItems.length) :
    findElem (processGroup none i g d) rid =
      some { e with radioItems := e.radioItems.drop 2 } := by
  obtain ⟨rf, hf, hi, hr⟩ := requestId_eq_some_elim hg
  simp only [processGroup, hf, hi, if_neg hr, alignedGroupData_none]
  unfold branchReduce
  rw [he, findElem_updateFirst_self, he]
  simp [alignedGroupData_none, reduceRadioItems_absent hlen]

lemma processGroups_null_reduce :
    ∀ (gs : List FieldGroup) (i : Nat) (d : Doc) (rid : String),
      (gs.filterMap requestId).count rid = 1 →
      (∃ g ∈ gs, requestId g = some rid) →
      ∀ e, findElem d rid = some e → 4 ≤ e.radioItems.length →
      findElem (processGroups none i gs d) rid =
        some { e with radioItems := e.radioItems.drop 2 } := by
  intro gs
  induction gs with
  | nil => intro i d rid _ hex; exact absurd hex (by simp)
  | cons g rest ih =>
    intro i d rid hcount hex e he hlen
    by_cases hg : requestId g = some rid
    · have hstep := processGroup_null_reduce i g d rid e hg he hlen
      have hcons : (g :: rest).filterMap requestId =
          rid :: rest.filterMap requestId := by
        simp [List.filterMap_cons, hg]
      rw [hcons, List.count_cons_self] at hcount
      have h0 : (rest.filterMap requestId).count rid = 0 := by omega
      have hrest : ∀ g' ∈ rest, requestId g' ≠ some rid := by
        intro g' hg' hcontra
        exact absurd (List.mem_filterMap.mpr ⟨g', hg', hcontra⟩)
          (List.count_eq_zero.mp h0)
      show findElem (processGroups none (i + 1) rest (processGroup none i g d)) rid = _
      rw [processGroups_null_untouched rest (i + 1) _ rid hrest, hstep]
    · obtain ⟨g0, hg0mem, hg0⟩ := hex
      have hg0rest : g0 ∈ rest := by
        cases List.mem_cons.mp hg0mem with
        | inl h => exact absurd (h ▸ hg0) hg
        | inr h => exact h
      have hcount' : (rest.filterMap requestId).count rid = 1 := by
        cases hq : requestId g with
        | none => simpa [List.filterMap_cons, hq] using hcount
        | some r =>
          have hrne : rid ≠ r := fun hcontra => hg (by rw [hq, hcontra])
          have hcons : (g :: rest).filterMap requestId =
              r :: rest.filterMap requestId := by
            simp [List.filterMap_cons, hq]
          rw [hcons, List.count_cons_of_ne hrne] at hcount
          exact hcount
      have hstep := processGroup_null_untouched i g d rid hg
      show findElem (processGroups none (i + 1) rest (processGroup none i g d)) rid = _
      exact ih (i + 1) _ rid hcount' ⟨g0, hg0rest, hg0⟩ e (by rw [hstep]; exact he) hlen

lemma processGroup_null_nonRadio (i : Nat) (g : FieldGroup) (d : Doc) (j : String) :
    (findElem (processGroup none i g d) j).map nonRadioView =
      (findElem d j).map nonRadioView := by
  cases hf : g.childFields.find? isRequestContent with
  | none => simp only [processGroup, hf]
  | some rf =>
    cases hi : rf.id with
    | none => simp only [processGroup, hf, hi]
    | some r =>
      by_cases hr : r = ""
      · simp only [processGroup, hf, hi, if_pos hr]
      · simp only [processGroup, hf, hi, if_neg hr, alignedGroupData_none]
        exact branchReduce_proj nonRadioView (fun e l => rfl) none i r d j

lemma processGroups_null_nonRadio :
    ∀ (gs : List FieldGroup) (i : Nat) (d : Doc) (j : String),
      (findElem (processGroups none i gs d) j).map nonRadioView =
        (findElem d j).map nonRadioView := by
  intro gs
  induction gs with
  | nil => intro i d j; rfl
  | cons g rest ih =>
    intro i d j
    show (findElem (processGroups none (i + 1) rest (processGroup none i g d)) j).map
        nonRadioView = _
    rw [ih, processGroup_null_nonRadio]

/-- **C7.** With a null payload, `applyDataToForm` overwrites no header
text and writes no field values (every element's non-radio state is
unchanged), and for a structurally valid group — request-content field
found with a truthy id resolving, uniquely among the groups, to an element
with at least 4 choice items — only the branch reduction keeping the last
two choice items happens on that element. -/
theorem C7_null_payload_reduction_only (gs : List FieldGroup) (d : Doc) :
    (∀ j, (findElem (applyDataToForm gs none d) j).map nonRadioView =
      (findElem d j).map nonRadioView) ∧
    (∀ rid, (gs.filterMap requestId).count rid = 1 →
      (∃ g ∈ gs, requestId g = some rid) →
      ∀ e, findElem d rid = some e → 4 ≤ e.radioItems.length →
      findElem (applyDataToForm gs none d) rid =
        some { e with radioItems := e.radioItems.drop 2 }) := by
  constructor
  · intro j
    exact processGroups_null_nonRadio gs 0 d j
  · intro rid hcount hex e he hlen
    exact processGroups_null_reduce gs 0 d rid hcount hex e he hlen

/-- Witness for C7 at concrete inputs. -/
theorem C7_witness :
    (findElem (applyDataToForm [sampleGroup] none sampleDoc) "col1").map nonRadioView =
      (findElem sampleDoc "col1").map nonRadioView ∧
    findElem (applyDataToForm [sampleGroup] none sampleDoc) "rq1" =
      some { sampleElem with radioItems := sampleElem.radioItems.drop 2 } := by
  constructor
  · exact (C7_null_payload_reduction_only [sampleGroup] sampleDoc).1 "col1"
  · exact (C7_null_payload_reduction_only [sampleGroup] sampleDoc).2 "rq1"
      (by decide) ⟨sampleGroup, by decide, by decide⟩ sampleElem (by decide) (by decide)

/-! ### C9 — empty headerText means no header override -/

/-- **C9.** A payload entry whose `headerText` is the empty string
declares no header override: processing the group leaves every element's
`.form-collapse-mid` text unchanged. -/
theorem C9_empty_header_no_override (pd : Option PrefillData) (i : Nat)
    (g : FieldGroup) (d : Doc) (gd : QueryGroupData)
    (hgd : alignedGroupData pd i = some gd) (hht : gd.headerText = "") :
    ∀ j, (findElem (processGroup pd i g d) j).map Elem.collapseMid =
      (findElem d j).map Elem.collapseMid := by
  intro j
  cases hf : g.childFields.find? isRequestContent with
  | none => simp only [processGroup, hf]
  | some rf =>
    cases hi : rf.id with
    | none => simp only [processGroup, hf, hi]
    | some rid =>
      by_cases hr : rid = ""
      · simp only [processGroup, hf, hi, if_pos hr]
      · simp only [processGroup, hf, hi, if_neg hr, hgd]
        rw [foldl_applyField_proj Elem.collapseMid applyDateTime_collapseMid
            setHeadControlValue_collapseMid (fun e cs => rfl) g gd.fields,
          headerStep_of_empty g gd _ hht,
          branchReduce_proj Elem.collapseMid (fun e l => rfl) pd i rid d j]

/-- Witness for C9 at concrete inputs. -/
theorem C9_witness :
    (findElem (processGroup (some samplePrefill) 0 sampleGroup sampleDoc) "col1").map
        Elem.collapseMid =
      (findElem sampleDoc "col1").map Elem.collapseMid :=
  C9_empty_header_no_override (some samplePrefill) 0 sampleGroup sampleDoc
    sampleGroupData rfl rfl "col1"

/-! ### C10 — the reserved key is excluded only on exact raw equality -/

/-- **C10.** `applyField` skips a key only when the raw key equals
`リクエスト内容` exactly; a key differing from it only by whitespace is not
skipped: after normalization it resolves to the request-content field and a
generic value mutation is applied to that field's element. -/
theorem C10_reserved_key_exact_exclusion :
    (∀ (g : FieldGroup) (d : Doc) (v : String),
      applyField g d ("リクエスト内容", v) = d) ∧
    (∀ (g : FieldGroup) (d : Doc) (key v : String) (rf : FormField)
        (tid : String) (e : Elem),
      key ≠ "リクエスト内容" → key ≠ "timeOption" →
      normalizeLabel key = "リクエスト内容" →
      g.childFields.find? (matchesNormalizedKey "リクエスト内容") = some rf →
      rf.text = some "リクエスト内容" →
      rf.id = some tid → tid ≠ "" →
      findElem d tid = some e →
      rf.type ≠ some "control_datetime" →
      applyField g d (key, v) = applyGenericValue d tid e v) := by
  constructor
  · intro g d v
    simp [applyField]
  · intro g d key v rf tid e h1 h2 hnorm hfind htext hid hne hel htype
    have hj1 : ("リクエスト内容" : String) ≠ "時" := by decide
    have hj2 : ("リクエスト内容" : String) ≠ "分" := by decide
    simp [applyField, h1, h2, hnorm, hj1, hj2, hfind, hid, hne, hel, htype]

/-- Witness for C10 at concrete inputs: the key `リクエスト 内容` (interior
space) is not excluded and mutates the request-content field. -/
theorem C10_witness :
    applyField sampleGroup sampleDoc ("リクエスト 内容", "変更後") =
      applyGenericValue sampleDoc "rq1" sampleElem "変更後" :=
  C10_reserved_key_exact_exclusion.2 sampleGroup sampleDoc "リクエスト 内容" "変更後"
    sampleRequestField "rq1" sampleElem (by decide) (by decide) (by decide)
    (by decide) (by decide) (by decide) (by decide) (by decide) (by decide)

end RequestForm
